import Mathlib

/-!
Verification development for the FTP browser image-source connector
(`src/plugins/ftp_browser/ftp_browser.py` and
`src/blueprints/ftp_browser_api.py`).

The Python code is shallowly embedded as executable Lean definitions:
  * string helpers mirror the Python primitives the code calls
    (`str.lower`, `str.endswith`, `str.rstrip`, `os.path.join`,
    `os.path.dirname`, `os.path.splitext`);
  * `list_directory` embeds `_list_directory` (identical logic in both
    source files);
  * `listImagesDir`/`procEntry`/`procEntries` embed
    `_list_images_recursive`, threading the FTP session's working
    directory as explicit state, over a static remote file-system tree
    (`FSNode`) whose flags model which server operations succeed;
  * `verticalHandleSize`, `cropBoxCrop`, `containSize`, `finalResizeSize`
    embed the image-fitting arithmetic of `_get_image` at the size level,
    and `vertical_handling_pix`, `rotate90expand`, `rotate90cw`, `cropPix`
    embed it at the pixel level.  Python float arithmetic on these small
    integer ratios is modelled as exact rational arithmetic, carried out
    with integer cross-multiplication and explicit floor/round-half-even
    division so every definition is kernel-executable;
  * `BState`/`get_image`/`download_image`/`connect_ftp`/`close_ftp`/
    `cleanup_temp_files`/`ftpbrowser_del` embed the `FTPBrowser` instance
    state (connection handle, registered temp files) and its operations;
  * `bp_download_image`/`preview_image` embed the blueprint's download
    and preview endpoint, tracking which temp files exist on disk.
-/

/-- Python `str.lower()` (per-character ASCII lowering, as used on file names). -/
def pyLower (s : String) : String := ⟨s.data.map Char.toLower⟩

/-- Python `str.endswith(suffix)`. -/
def pyEndsWith (s suff : String) : Bool := suff.data.isSuffixOf s.data

/-- The check `name.lower().endswith((".jpg", ".jpeg", ".png", ".bmp", ".gif"))`
used throughout both source files. -/
def hasImageExt (name : String) : Bool :=
  let n := pyLower name
  pyEndsWith n ".jpg" || pyEndsWith n ".jpeg" || pyEndsWith n ".png" ||
  pyEndsWith n ".bmp" || pyEndsWith n ".gif"

/-- Python `path.rstrip("/")` as used in `_list_images_recursive`. -/
def rstripSlash (s : String) : String := ⟨(s.data.reverse.dropWhile (· = '/')).reverse⟩

/-- Python `s.replace("\\", "/")` (single-character substring, so a char map). -/
def replaceBackslash (s : String) : String :=
  ⟨s.data.map (fun c => if c = '\\' then '/' else c)⟩

/-- Python `os.path.join(path, name)` (posix): an absolute `name` wins;
otherwise a single slash is inserted unless `path` is empty or ends in one. -/
def osJoin (p n : String) : String :=
  if n.data.head? = some '/' then n
  else if p.data = [] then n
  else if p.data.getLast? = some '/' then p ++ n
  else p ++ "/" ++ n

/-- Python `os.path.dirname(path)` (posix): everything before the last slash,
with trailing slashes stripped unless the head is all slashes. -/
def dirname (p : String) : String :=
  let cs := p.data
  let tail := cs.reverse.takeWhile (fun c => c ≠ '/')
  if tail.length = cs.length then ""
  else
    let head := cs.take (cs.length - tail.length)
    if head.all (fun c => c = '/') then ⟨head⟩
    else ⟨(head.reverse.dropWhile (fun c => c = '/')).reverse⟩

/-- Python `os.path.splitext(p)[1]` (posix): the extension starting at the last
dot of the basename, provided some non-dot character of the basename precedes it. -/
def splitextExt (p : String) : String :=
  let b := (p.data.reverse.takeWhile (fun c => c ≠ '/')).reverse
  let revTail := b.reverse.takeWhile (fun c => c ≠ '.')
  if revTail.length = b.length then ""
  else
    let stem := b.take (b.length - (revTail.length + 1))
    if stem.any (fun c => c ≠ '.') then ⟨'.' :: revTail.reverse⟩ else ""

/-- Abstract name of the `k`-th temporary file created by
`tempfile.NamedTemporaryFile(delete=False, suffix=suffix)`: fresh names are
modelled by an incrementing counter. -/
def tmpName (k : ℕ) (suffix : String) : String :=
  ⟨'t' :: 'm' :: 'p' :: List.replicate k 'x'⟩ ++ suffix

/-- Python `round` applied to the exact ratio `num / den` (`den > 0`):
round half to even. -/
def pyRoundRat (num den : ℕ) : ℕ :=
  if 2 * (num % den) < den then num / den
  else if den < 2 * (num % den) then num / den + 1
  else if (num / den) % 2 = 0 then num / den else num / den + 1

/-- The entry type reported by the server for one child, as MLSD facts would
describe it (`dir`, `file`, or some other fact such as `cdir`). -/
inductive RawType where
| dir
| file
| other
deriving DecidableEq, Repr

/-- One child of the listed remote directory: its name, its true type (MLSD
reports it; the NLST probe detects `dir` by a successful `cwd`), and the
optional MLSD size fact. -/
structure RawEntry where
  name : String
  rtype : RawType
  size : Option String
deriving DecidableEq, Repr

/-- One of the dictionaries `_list_directory` builds for a directory or file. -/
structure LEntry where
  name : String
  path : String
  etype : String
  size : Option String
deriving DecidableEq, Repr

/-- The dictionary `_list_directory` returns. -/
structure ListingResult where
  current_path : String
  parent_path : String
  directories : List LEntry
  files : List LEntry
deriving DecidableEq, Repr

/-- The case-insensitive by-name order used by `sort(key=lambda x: x["name"].lower())`. -/
def nameLe (a b : LEntry) : Prop := pyLower a.name ≤ pyLower b.name

instance : DecidableRel nameLe := fun a b =>
  inferInstanceAs (Decidable (pyLower a.name ≤ pyLower b.name))

/-- Embeds `_list_directory` (the identical function in
`src/plugins/ftp_browser/ftp_browser.py` lines 82-166 and
`src/blueprints/ftp_browser_api.py` lines 36-117) on a successfully entered
directory whose children are `entries`.  `mlsdOk = true` is the MLSD branch;
`mlsdOk = false` is the NLST fallback, where the type of each name is probed
by attempting `cwd` (success exactly for true directories). -/
def list_directory (mlsdOk : Bool) (path : String) (entries : List RawEntry) :
    ListingResult :=
  let dirs :=
    entries.filterMap (fun e =>
      if e.name = "." ∨ e.name = ".." then none
      else if e.rtype = RawType.dir then
        some (LEntry.mk e.name (replaceBackslash (osJoin path e.name)) "dir" none)
      else none)
  let files :=
    if mlsdOk then
      entries.filterMap (fun e =>
        if e.name = "." ∨ e.name = ".." then none
        else if e.rtype = RawType.file ∧ hasImageExt e.name then
          some (LEntry.mk e.name (replaceBackslash (osJoin path e.name)) "file"
                (some (e.size.getD "0")))
        else none)
    else
      entries.filterMap (fun e =>
        if e.name = "." ∨ e.name = ".." then none
        else if e.rtype ≠ RawType.dir ∧ hasImageExt e.name then
          some (LEntry.mk e.name (replaceBackslash (osJoin path e.name)) "file"
                (some "unknown"))
        else none)
  ListingResult.mk path (if path ≠ "/" then dirname path else "/")
    (List.insertionSort nameLe dirs) (List.insertionSort nameLe files)

/-- Outcome of the `nlst()` call in the NLST fallback of
`_list_images_recursive`: it succeeds, raises `UnicodeDecodeError`
(the early-return branch), or raises a permission error (propagates). -/
inductive NlstRes where
| ok
| decodeErr
| permErr
deriving DecidableEq, Repr

/-- A node of the static remote file-system tree.  For a directory,
`canEnter` says whether `cwd` into it succeeds, `mlsdOk` whether `mlsd()`
succeeds (otherwise it raises one of the exception types the code catches),
`nlst` how `nlst()` behaves, and `children` its entries.  Returning `cwd`
to a directory the session already occupied always succeeds (the tree is
static for the duration of one walk). -/
inductive FSNode where
| file (name : String)
| dir (name : String) (canEnter : Bool) (mlsdOk : Bool) (nlst : NlstRes) (children : List FSNode)
deriving Repr

/-- Name of a node. -/
def FSNode.name : FSNode → String
| .file n => n
| .dir n _ _ _ _ => n

/-- Whether a node is a directory. -/
def isDirB : FSNode → Bool
| .file _ => false
| .dir _ _ _ _ _ => true

mutual

/-- Embeds one invocation of `_list_images_recursive(path)`
(`src/plugins/ftp_browser/ftp_browser.py` lines 172-240) on the directory
node `n` resolved for `path`, with `cwd0` the session's working directory at
entry (`current_dir = self.ftp.pwd()`).  Returns the result of the call —
`.error ()` stands for the `RuntimeError` raised by the outer handler — and
the session's working directory at exit.  The `cwd(path)` that fails leaves
the working directory unchanged; a root-level `nlst` permission error raises
after `cwd(path)` succeeded, so the directory is left at `path`. -/
def listImagesDir (cwd0 path : String) (n : FSNode) :
    Except Unit (List String) × String :=
  match n with
  | .file _ => (.error (), cwd0)
  | .dir _ canEnter mlsdOk nlst children =>
    if canEnter then
      if mlsdOk then
        let r := procEntries cwd0 path true children path
        (.ok r.1, cwd0)
      else
        match nlst with
        | .decodeErr => (.ok [], cwd0)
        | .permErr => (.error (), path)
        | .ok =>
          let r := procEntries cwd0 path false children path
          (.ok r.1, cwd0)
    else (.error (), cwd0)
termination_by (sizeOf n, 0)

/-- Embeds one iteration of the entry loop of `_list_images_recursive`:
`typed = true` is the MLSD branch (entry types known), `typed = false` the
NLST fallback (type `None`, probed by `cwd`).  `currentDir` is the saved
`current_dir` of the enclosing invocation, `st` the session's working
directory before this iteration.  Per-entry exceptions (a failing recursive
call wraps itself in `RuntimeError`) are caught by the loop's handlers and
the entry skipped, keeping whatever working directory the failure left. -/
def procEntry (currentDir path : String) (typed : Bool) :
    FSNode → String → List String × String
  | .file nm, st =>
    if nm = "." ∨ nm = ".." then ([], st)
    else
      let fullPath := rstripSlash path ++ "/" ++ nm
      if hasImageExt nm then ([fullPath], st) else ([], st)
  | .dir nm ce ml nl ch, st =>
    if nm = "." ∨ nm = ".." then ([], st)
    else
      let fullPath := rstripSlash path ++ "/" ++ nm
      if typed then
        match listImagesDir st fullPath (.dir nm ce ml nl ch) with
        | (.ok l, st1) => (l, st1)
        | (.error _, st1) => ([], st1)
      else
        if ce then
          match listImagesDir currentDir fullPath (.dir nm ce ml nl ch) with
          | (.ok l, st1) => (l, st1)
          | (.error _, st1) => ([], st1)
        else
          if hasImageExt nm then ([fullPath], st) else ([], st)
termination_by c _ => (sizeOf c, 1)

/-- The entry loop of `_list_images_recursive`, threading the working
directory through the iterations and concatenating the collected paths. -/
def procEntries (currentDir path : String) (typed : Bool) (cs : List FSNode) (st : String) :
    List String × String :=
  match cs with
  | [] => ([], st)
  | c :: rest =>
    let r1 := procEntry currentDir path typed c st
    let r2 := procEntries currentDir path typed rest r1.2
    (r1.1 ++ r2.1, r2.2)
termination_by (sizeOf cs, 2)

end

mutual

/-- Specification function: the image paths a fault-free depth-first walk of
`n` (listed at `path`) collects, in order. -/
def imagePaths (path : String) : FSNode → List String
  | .file _ => []
  | .dir _ _ _ _ ch => imagePathsList path ch
termination_by c => (sizeOf c, 0)

/-- Specification function: the image paths collected from the entries `cs`
of the directory listed at `path`. -/
def imagePathsList (path : String) : List FSNode → List String
  | [] => []
  | c :: rest =>
    (match c with
     | .file nm =>
       if nm = "." ∨ nm = ".." then []
       else if hasImageExt nm then [rstripSlash path ++ "/" ++ nm] else []
     | .dir nm ce ml nl ch =>
       if nm = "." ∨ nm = ".." then []
       else imagePaths (rstripSlash path ++ "/" ++ nm) (.dir nm ce ml nl ch))
    ++ imagePathsList path rest
termination_by cs => (sizeOf cs, 1)

end

mutual

/-- Number of image-extension files in the tree under a node (pseudo-entries
named `.` or `..` excluded, as the walk skips them). -/
def countImages : FSNode → ℕ
  | .file nm => if hasImageExt nm then 1 else 0
  | .dir _ _ _ _ ch => countImagesList ch
termination_by c => (sizeOf c, 0)

/-- Number of image-extension files under a list of entries. -/
def countImagesList : List FSNode → ℕ
  | [] => 0
  | c :: rest =>
    (if c.name = "." ∨ c.name = ".." then 0 else countImages c) + countImagesList rest
termination_by cs => (sizeOf cs, 1)

end

/-- Whether the name listing succeeds. -/
def nlstOkB : NlstRes → Bool
| .ok => true
| .decodeErr => false
| .permErr => false

/-- Whether the name listing raises a permission error. -/
def nlstPermB : NlstRes → Bool
| .ok => false
| .decodeErr => false
| .permErr => true

mutual

/-- A fault-free tree: no pseudo-names, every directory enterable, and every
directory listable (rich listing works, or the name listing works). -/
def cleanTree : FSNode → Bool
  | .file nm => !(nm = "." || nm = "..")
  | .dir nm ce ml nl ch =>
    !(nm = "." || nm = "..") && ce && (ml || nlstOkB nl) && cleanList ch
termination_by c => (sizeOf c, 0)

/-- A fault-free list of entries. -/
def cleanList : List FSNode → Bool
  | [] => true
  | c :: rest => cleanTree c && cleanList rest
termination_by cs => (sizeOf cs, 1)

end

/-- The root-level failures of `_list_images_recursive`: the call raises
exactly when the root cannot be entered, or the root's rich listing fails
and its name listing raises a (non-decode) permission error.  Called on a
file node, `cwd` fails as well. -/
def rootFailB : FSNode → Bool
| .file _ => true
| .dir _ ce ml nl _ => !ce || (!ml && nlstPermB nl)

/-- The crop box `(left, upper, right, lower)` the Crop branch of `_get_image`
(lines 318-333) computes for image size `size = (w, h)` and display
`dims = (W, H)`.  The float comparisons and products are exact rationals:
`img_aspect > display_aspect` is `w/h > W/H`, i.e. `w*H > W*h`;
`int(img_height * display_aspect)` is `h*W/H` truncated (ℕ division);
`int(img_width / display_aspect)` is `w*H/W` truncated; `//2` is ℕ division. -/
def cropBoxCrop (dims size : ℕ × ℕ) : ℕ × ℕ × ℕ × ℕ :=
  if size.1 * dims.2 > dims.1 * size.2 then
    ((size.1 - size.2 * dims.1 / dims.2) / 2, 0,
     (size.1 - size.2 * dims.1 / dims.2) / 2 + size.2 * dims.1 / dims.2, size.2)
  else
    (0, (size.2 - size.1 * dims.2 / dims.1) / 2, size.1,
     (size.2 - size.1 * dims.2 / dims.1) / 2 + size.1 * dims.2 / dims.1)

/-- Resulting size of the vertical-handling step of `_get_image`
(lines 308-333).  The guard is `img_height > img_width and
display_width > display_height`; `rotate` is `img.rotate(90, expand=True)`
(size swaps); `crop` applies `cropBoxCrop`; any other policy string leaves
the image unchanged. -/
def verticalHandleSize (vh : String) (dims size : ℕ × ℕ) : ℕ × ℕ :=
  if size.2 > size.1 ∧ dims.1 > dims.2 then
    if vh = "rotate" then (size.2, size.1)
    else if vh = "crop" then
      let box := cropBoxCrop dims size
      (box.2.2.1 - box.1, box.2.2.2 - box.2.1)
    else size
  else size

/-- Resulting size of `PIL.ImageOps.contain(img, dims)`: if the aspect ratios
differ (`w/h` vs `W/H`, compared exactly by cross-multiplication), shrink the
long axis target to `round(h/w * W)` resp. `round(w/h * H)` (Python round,
half to even); the image is resized to fit inside `dims`, not padded to it. -/
def containSize (size dims : ℕ × ℕ) : ℕ × ℕ :=
  if size.1 * dims.2 ≠ dims.1 * size.2 then
    if size.1 * dims.2 > dims.1 * size.2 then
      if pyRoundRat (size.2 * dims.1) size.1 ≠ dims.2 then
        (dims.1, pyRoundRat (size.2 * dims.1) size.1)
      else dims
    else
      if pyRoundRat (size.1 * dims.2) size.2 ≠ dims.1 then
        (pyRoundRat (size.1 * dims.2) size.2, dims.2)
      else dims
  else dims

/-- Resulting size of the final resize of `_get_image` (lines 335-341):
`ImageOps.contain(img, dimensions, ...)` when `padImage`, else
`img.resize(dimensions, ...)`. -/
def finalResizeSize (pad : Bool) (dims size : ℕ × ℕ) : ℕ × ℕ :=
  if pad then containSize size dims else dims

/-- Size of the buffer `_get_image` returns, as a function of the decoded
(EXIF-normalized) image size: the vertical-handling step followed by the
final resize. -/
def fitSize (vh : String) (pad : Bool) (dims size : ℕ × ℕ) : ℕ × ℕ :=
  finalResizeSize pad dims (verticalHandleSize vh dims size)

/-- A decoded RGB pixel buffer: dimensions plus pixel lookup (values are
abstract codes; lookups outside the extent are irrelevant). -/
structure PImage where
  width : ℕ
  height : ℕ
  pix : ℕ → ℕ → ℕ

/-- Pixel semantics of `img.rotate(90, expand=True)` in PIL: a rotation by
90° COUNTERCLOCKWISE (PIL's `rotate` takes its angle counterclockwise; with
`expand` the canvas swaps to `h × w`).  The top-left output pixel is the
top-RIGHT input pixel: output `(x, y)` reads input `(w - 1 - y, x)`. -/
def rotate90expand (img : PImage) : PImage :=
  PImage.mk img.height img.width (fun x y => img.pix (img.width - 1 - y) x)

/-- Pixel semantics of a 90° CLOCKWISE rotation — what the spec sentence
"rotate the pixel buffer 90° clockwise" denotes (this is
`img.transpose(Image.ROTATE_270)` in PIL, not `img.rotate(90)`): output
`(x, y)` reads input `(y, h - 1 - x)`. -/
def rotate90cw (img : PImage) : PImage :=
  PImage.mk img.height img.width (fun x y => img.pix y (img.height - 1 - x))

/-- Pixel semantics of `img.crop((left, upper, right, lower))`. -/
def cropPix (left upper right lower : ℕ) (img : PImage) : PImage :=
  PImage.mk (right - left) (lower - upper) (fun x y => img.pix (left + x) (upper + y))

/-- The vertical-handling step of `_get_image` (lines 308-333) at the pixel
level: under the portrait-image/landscape-display guard, `rotate` calls
`img.rotate(90, expand=True)` and `crop` center-crops with `cropBoxCrop`. -/
def vertical_handling_pix (vh : String) (dims : ℕ × ℕ) (img : PImage) : PImage :=
  if img.height > img.width ∧ dims.1 > dims.2 then
    if vh = "rotate" then rotate90expand img
    else if vh = "crop" then
      let box := cropBoxCrop dims (img.width, img.height)
      cropPix box.1 box.2.1 box.2.2.1 box.2.2.2 img
    else img
  else img

/-- Python exception kinds the embedded code raises. -/
inductive PyExc where
| valueError
| fileNotFound
| runtimeError
| osError
deriving DecidableEq, Repr

/-- The mutable state of one `FTPBrowser` plugin instance: whether `self.ftp`
holds a live connection, the registered `self.temp_files`, and the counter
feeding fresh temp-file names. -/
structure BState where
  connected : Bool
  tempFiles : List String
  nextTmp : ℕ
deriving DecidableEq, Repr

/-- Embeds `_close_ftp` (lines 53-61): best-effort quit, never raises,
always clears `self.ftp`. -/
def close_ftp (s : BState) : BState := BState.mk false s.tempFiles s.nextTmp

/-- Embeds `_cleanup_temp_files` (lines 43-51): best-effort removal of every
registered file, never raises, resets `self.temp_files` to `[]`. -/
def cleanup_temp_files (s : BState) : BState := BState.mk s.connected [] s.nextTmp

/-- Embeds `__del__` (lines 39-41): `_cleanup_temp_files()` then
`_close_ftp()` — scratch files first, then the session, both best-effort. -/
def ftpbrowser_del (s : BState) : BState := close_ftp (cleanup_temp_files s)

/-- Embeds `_connect_ftp` (lines 63-80): closes any existing connection
first, then connects and logs in; `ok` says whether the connect/login
succeeds (failure raises `RuntimeError`). -/
def connect_ftp (ok : Bool) (s : BState) : Except PyExc Unit × BState :=
  let s1 := close_ftp s
  if ok then (.ok (), BState.mk true s1.tempFiles s1.nextTmp)
  else (.error PyExc.runtimeError, s1)

/-- Embeds `_download_image` (lines 242-261): requires a connection; creates
the temp file (suffix from `os.path.splitext`, default `.png`) and registers
it in `self.temp_files` BEFORE the transfer; a failing `retrbinary` raises
`RuntimeError`, with the file already registered. -/
def download_image (remotePath : String) (transferOk : Bool) (s : BState) :
    Except PyExc String × BState :=
  if s.connected = false then (.error PyExc.runtimeError, s)
  else
    let suffix := if splitextExt remotePath = "" then ".png" else splitextExt remotePath
    let p := tmpName s.nextTmp suffix
    let s1 := BState.mk s.connected (s.tempFiles ++ [p]) (s.nextTmp + 1)
    if transferOk then (.ok p, s1) else (.error PyExc.runtimeError, s1)

/-- The settings dictionary `_get_image` reads. -/
structure GISettings where
  server : String
  randomMode : Bool
  selectedImage : Option String
  currentPath : String
  verticalHandling : String
  padImage : Bool

/-- Environment of one `_get_image` request: behaviour of the remote server
and of the local decode steps.  `rootNode` is the tree node `current_path`
resolves to, `sessionCwd` the session's working directory after login,
`choose` the index `random.choice` picks, `decodedSize` the size of the
decoded image, `exifSize` the size after `exif_transpose` (`none` models the
swallowed failure of reading EXIF metadata, keeping the image as decoded). -/
structure GIEnv where
  connectOk : Bool
  rootNode : FSNode
  sessionCwd : String
  choose : ℕ
  transferOk : Bool
  decodeOk : Bool
  decodedSize : ℕ × ℕ
  exifSize : Option (ℕ × ℕ)

/-- Python falsiness of the optional `selected_image` string. -/
def pyFalsy : Option String → Bool
| none => true
| some s => s.data.isEmpty

/-- Embeds lines 296-341 of `_get_image`: download the selected image,
decode it to RGB, apply EXIF orientation (failure swallowed), handle
vertical images, final resize.  Returns the size of the produced buffer. -/
def fetch_and_fit (st : GISettings) (dims : ℕ × ℕ) (env : GIEnv) (p : String)
    (s : BState) : Except PyExc (ℕ × ℕ) × BState :=
  match download_image p env.transferOk s with
  | (.error e, s1) => (.error e, s1)
  | (.ok _, s1) =>
    if env.decodeOk = false then (.error PyExc.osError, s1)
    else
      let sz0 := match env.exifSize with
        | some t => t
        | none => env.decodedSize
      let sz1 := verticalHandleSize st.verticalHandling dims sz0
      let sz2 := finalResizeSize st.padImage dims sz1
      (.ok sz2, s1)

/-- Embeds the `try` body of `_get_image` (lines 285-341): the selection
policy followed by `fetch_and_fit`.  Error kinds: enumeration failure
re-raises as `RuntimeError` (from `_list_images_recursive`), no images in
random mode raises `FileNotFoundError`, missing selection raises
`ValueError`, transfer failure `RuntimeError`, decode failure an OS-level
error. -/
def get_image_body (st : GISettings) (dims : ℕ × ℕ) (env : GIEnv) (s : BState) :
    Except PyExc (ℕ × ℕ) × BState :=
  let sel : Except PyExc String :=
    if st.randomMode then
      match (listImagesDir env.sessionCwd st.currentPath env.rootNode).1 with
      | .error _ => .error PyExc.runtimeError
      | .ok imgs =>
        if imgs.isEmpty then .error PyExc.fileNotFound
        else .ok (imgs.getD (env.choose % imgs.length) "")
    else
      if pyFalsy st.selectedImage then .error PyExc.valueError
      else .ok (st.selectedImage.getD "")
  match sel with
  | .error e => (.error e, s)
  | .ok p => fetch_and_fit st dims env p s

/-- Embeds `_get_image` (lines 263-345): the missing-`server` `ValueError`
and the connect `RuntimeError` are raised BEFORE the `try` and propagate
as-is; every exception raised inside the `try` reaches the function's own
`except` handler unmodified in kind, and that boundary handler re-raises it
as a flat `RuntimeError` message.  No cleanup runs on return: the connection
and the registered temp files persist in the instance state until
`__del__`. -/
def get_image (st : GISettings) (dims : ℕ × ℕ) (env : GIEnv) (s : BState) :
    Except PyExc (ℕ × ℕ) × BState :=
  if st.server.data.isEmpty then (.error PyExc.valueError, s)
  else
    match connect_ftp env.connectOk s with
    | (.error e, s1) => (.error e, s1)
    | (.ok _, s1) =>
      match get_image_body st dims env s1 with
      | (.ok v, s2) => (.ok v, s2)
      | (.error _, s2) => (.error PyExc.runtimeError, s2)

/-- Embeds the blueprint's `_download_image`
(`src/blueprints/ftp_browser_api.py` lines 123-138): creates the temp file
on disk, but — unlike the plugin's `_download_image` — registers it nowhere;
its name is only RETURNED, and only on success.  `disk` is the list of
temp files existing on disk. -/
def bp_download_image (remotePath : String) (transferOk : Bool) (disk : List String) :
    Except PyExc String × List String :=
  let suffix := if splitextExt remotePath = "" then ".png" else splitextExt remotePath
  let p := tmpName 0 suffix
  let disk1 := disk ++ [p]
  if transferOk then (.ok p, disk1) else (.error PyExc.runtimeError, disk1)

/-- Embeds the `preview_image` endpoint (lines 170-216) after a successful
connect, for a non-empty `path`: `local_path` starts as `None`; the
`finally` block deletes `local_path` only if the download call RETURNED, so
a transfer that fails midway leaves its temp file on disk; any exception is
flattened to a 500 error.  Returns the flat outcome and the disk state. -/
def preview_image (remotePath : String) (transferOk decodeOk : Bool)
    (disk : List String) : Except PyExc Unit × List String :=
  match bp_download_image remotePath transferOk disk with
  | (.ok p, disk1) =>
    let res : Except PyExc Unit := if decodeOk then .ok () else .error PyExc.runtimeError
    (res, disk1.filter (fun q => decide (q ≠ p)))
  | (.error _, disk1) => (.error PyExc.runtimeError, disk1)

/-- Helper: a round-half-even of a ratio strictly below an integer bound
stays within the bound. -/
theorem pyRoundRat_le (num den bound : ℕ) (hden : 0 < den) (hlt : num < bound * den) :
    pyRoundRat num den ≤ bound := by
  unfold pyRoundRat
  have hdiv : num / den < bound := (Nat.div_lt_iff_lt_mul hden).mpr hlt
  split
  · omega
  · split
    · omega
    · split
      · omega
      · omega

/-- Helper: `ImageOps.contain` never exceeds the requested box. -/
theorem containSize_le (size dims : ℕ × ℕ) :
    (containSize size dims).1 ≤ dims.1 ∧ (containSize size dims).2 ≤ dims.2 := by
  unfold containSize
  split
  · split
    · rename_i hne hgt
      have h1 : 0 < size.1 := by
        rcases Nat.eq_zero_or_pos size.1 with h | h
        · rw [h] at hgt
          simp at hgt
        · exact h
      have hlt : size.2 * dims.1 < dims.2 * size.1 := by
        calc size.2 * dims.1 = dims.1 * size.2 := Nat.mul_comm _ _
        _ < size.1 * dims.2 := hgt
        _ = dims.2 * size.1 := Nat.mul_comm _ _
      have hb := pyRoundRat_le (size.2 * dims.1) size.1 dims.2 h1 hlt
      split
      · exact ⟨le_refl _, hb⟩
      · exact ⟨le_refl _, le_refl _⟩
    · rename_i hne hle
      have hlt : size.1 * dims.2 < dims.1 * size.2 :=
        lt_of_le_of_ne (Nat.le_of_not_lt hle) hne
      have h2 : 0 < size.2 := by
        rcases Nat.eq_zero_or_pos size.2 with h | h
        · rw [h] at hlt
          simp at hlt
        · exact h
      have hb := pyRoundRat_le (size.1 * dims.2) size.2 dims.1 h2 hlt
      split
      · exact ⟨hb, le_refl _⟩
      · exact ⟨le_refl _, le_refl _⟩
  · exact ⟨le_refl _, le_refl _⟩

/-- C10 (confirmed): under the vertical-handling guard (portrait image,
landscape display, positive dimensions) the image aspect ratio `w/h` is
strictly below the display aspect ratio `W/H` (equivalently `w*H < W*h`), so
the Crop policy's width-cropping branch is unreachable: the crop keeps the
width `w` and reduces the height to `w*H/W ≤ h`. -/
theorem C10_crop_reduces_only_height (W H w h : ℕ)
    (hwh : h > w) (hWH : W > H) (hw : 0 < w) (hh : 0 < h) (hW : 0 < W) (hH : 0 < H) :
    (w : ℚ) / h < (W : ℚ) / H ∧
    w * H < W * h ∧
    verticalHandleSize "crop" (W, H) (w, h) = (w, w * H / W) ∧
    w * H / W ≤ h := by
  have hcross : w * H < W * h := by
    calc w * H < h * H := mul_lt_mul_of_pos_right hwh hH
    _ ≤ h * W := Nat.mul_le_mul (le_refl h) (le_of_lt hWH)
    _ = W * h := Nat.mul_comm _ _
  have hq : (w : ℚ) / h < (W : ℚ) / H := by
    rw [div_lt_div_iff₀ (by exact_mod_cast hh) (by exact_mod_cast hH)]
    exact_mod_cast hcross
  have hnewH : w * H / W ≤ h := by
    have hx : w * H / W < h := (Nat.div_lt_iff_lt_mul hW).mpr (by
      calc w * H < W * h := hcross
      _ = h * W := Nat.mul_comm _ _)
    omega
  refine ⟨hq, hcross, ?_, hnewH⟩
  have hg2 : ¬ ((w, h).1 * (W, H).2 > (W, H).1 * (w, h).2) := by
    show ¬ (w * H > W * h)
    omega
  unfold verticalHandleSize cropBoxCrop
  rw [if_pos (⟨hwh, hWH⟩ : ((w, h).2 > (w, h).1 ∧ (W, H).1 > (W, H).2))]
  rw [if_neg (by decide : ¬ (("crop" : String) = "rotate"))]
  rw [if_pos (rfl : ("crop" : String) = "crop")]
  rw [if_neg hg2]
  dsimp only
  simp only [Prod.mk.injEq]
  generalize w * H / W = nh
  omega

/-- C9 (amended form): when the Crop policy executes (portrait image,
landscape display), the code takes the height-cropping branch with
`newHeight = int(w / (W/H)) = w*H/W` — Python `int` TRUNCATION, not
`round` — and crops with `top = (h-newHeight)//2`; the discarded bottom
margin equals or exceeds the top margin by exactly the parity remainder:
they are equal exactly when `h - newHeight` is even, and otherwise differ
by one pixel. -/
theorem C9_crop_is_floor_and_near_center (W H w h : ℕ)
    (hwh : h > w) (hWH : W > H) (hw : 0 < w) (hH : 0 < H) :
    cropBoxCrop (W, H) (w, h) =
      (0, (h - w * H / W) / 2, w, (h - w * H / W) / 2 + w * H / W) ∧
    (h - w * H / W) / 2 ≤ h - ((h - w * H / W) / 2 + w * H / W) ∧
    h - ((h - w * H / W) / 2 + w * H / W) ≤ (h - w * H / W) / 2 + 1 ∧
    ((h - w * H / W) % 2 = 0 →
      h - ((h - w * H / W) / 2 + w * H / W) = (h - w * H / W) / 2) := by
  have hW : 0 < W := lt_trans hH hWH
  have hcross : w * H < W * h := by
    calc w * H < h * H := mul_lt_mul_of_pos_right hwh hH
    _ ≤ h * W := Nat.mul_le_mul (le_refl h) (le_of_lt hWH)
    _ = W * h := Nat.mul_comm _ _
  have hnewH : w * H / W ≤ h := by
    have hx : w * H / W < h := (Nat.div_lt_iff_lt_mul hW).mpr (by
      calc w * H < W * h := hcross
      _ = h * W := Nat.mul_comm _ _)
    omega
  have hg2 : ¬ ((w, h).1 * (W, H).2 > (W, H).1 * (w, h).2) := by
    show ¬ (w * H > W * h)
    omega
  have hbox : cropBoxCrop (W, H) (w, h) =
      (0, (h - w * H / W) / 2, w, (h - w * H / W) / 2 + w * H / W) := by
    unfold cropBoxCrop
    rw [if_neg hg2]
  obtain ⟨nh, hnh⟩ : ∃ x, w * H / W = x := ⟨_, rfl⟩
  rw [hnh] at hnewH hbox ⊢
  refine ⟨hbox, ?_, ?_, ?_⟩ <;> omega

/-- C9 counterexample: the claim's `round` formula and its equal-margins
assertion both fail on the code.  With display `(2,1)` and image `(3,5)`,
the code's crop height is `int(3/2) = 1`, while `round(3/2) = 2`; with
display `(2,1)` and image `(4,7)`, the crop box is `(0,2,4,4)`: the top
margin is `2` but the bottom margin is `7 - 4 = 3`. -/
theorem C9_counterexample :
    (cropBoxCrop (2, 1) (3, 5)).2.2.2 - (cropBoxCrop (2, 1) (3, 5)).2.1 = 1 ∧
    pyRoundRat (3 * 1) 2 = 2 ∧
    (1 : ℕ) ≠ 2 ∧
    cropBoxCrop (2, 1) (4, 7) = (0, 2, 4, 4) ∧
    (cropBoxCrop (2, 1) (4, 7)).2.1 = 2 ∧
    7 - (cropBoxCrop (2, 1) (4, 7)).2.2.2 = 3 ∧
    (2 : ℕ) ≠ 3 := by decide

/-- C9 witness: the amended theorem applied to display `(800,600)` and
image `(600,800)`. -/
theorem C9_witness :
    cropBoxCrop (800, 600) (600, 800) = (0, 175, 600, 625) ∧
    (800 - 600 * 600 / 800) / 2 ≤ 800 - 625 := by
  have h := C9_crop_is_floor_and_near_center 800 600 600 800
    (by decide) (by decide) (by decide) (by decide)
  constructor
  · rw [h.1]
  · decide

/-- C8 (amended form): with `padImage` false the final resize stretches to
exactly the requested dimensions; with `padImage` true the result of
`ImageOps.contain` merely FITS WITHIN the requested dimensions (aspect
preserved, no padding added), so each side is at most — and, as the
counterexample shows, sometimes strictly below — the requested one. -/
theorem C8_final_size (vh : String) (pad : Bool) (dims size : ℕ × ℕ) :
    (pad = false → fitSize vh pad dims size = dims) ∧
    (pad = true → (fitSize vh pad dims size).1 ≤ dims.1 ∧
      (fitSize vh pad dims size).2 ≤ dims.2) := by
  constructor
  · intro hp
    simp [fitSize, finalResizeSize, hp]
  · intro hp
    simp only [fitSize, finalResizeSize, hp, if_true]
    exact containSize_le _ _

/-- C8 counterexample: a successful `_get_image` request with
`padImage = true`, a decoded landscape image `400×100` and display
`800×600` returns an `800×200` buffer — not the exact requested
dimensions. -/
theorem C8_counterexample :
    (get_image (GISettings.mk "h" false (some "/a/x.jpg") "/" "rotate" true)
        (800, 600)
        (GIEnv.mk true (FSNode.dir "" true true NlstRes.ok []) "/" 0 true true
          (400, 100) none)
        (BState.mk false [] 0)).1 = Except.ok (800, 200) ∧
    ((800, 200) : ℕ × ℕ) ≠ (800, 600) := ⟨rfl, by decide⟩

/-- C8 witness: the amended theorem applied with `padImage` true, display
`800×600` and image `400×100`. -/
theorem C8_witness :
    (fitSize "rotate" true (800, 600) (400, 100)).1 ≤ 800 ∧
    (fitSize "rotate" true (800, 600) (400, 100)).2 ≤ 600 :=
  (C8_final_size "rotate" true (800, 600) (400, 100)).2 rfl

/-- C2: the code's vertical-handling rotate branch calls
`img.rotate(90, expand=True)`, which PIL documents as a COUNTERCLOCKWISE
rotation, while the claim (and the code's own log message, "Rotating
vertical image 90° clockwise") require clockwise.  On the portrait `1×2`
image with top pixel `7` and bottom pixel `9` and landscape display `2×1`,
the code produces the row `[7, 9]` (counterclockwise) whereas a clockwise
rotation produces `[9, 7]` — they differ at pixel `(0,0)`. -/
theorem C2_code_rotates_counterclockwise :
    (vertical_handling_pix "rotate" (2, 1)
      (PImage.mk 1 2 (fun _ y => if y = 0 then 7 else 9))).width = 2 ∧
    (vertical_handling_pix "rotate" (2, 1)
      (PImage.mk 1 2 (fun _ y => if y = 0 then 7 else 9))).height = 1 ∧
    (vertical_handling_pix "rotate" (2, 1)
      (PImage.mk 1 2 (fun _ y => if y = 0 then 7 else 9))).pix 0 0 = 7 ∧
    (vertical_handling_pix "rotate" (2, 1)
      (PImage.mk 1 2 (fun _ y => if y = 0 then 7 else 9))).pix 1 0 = 9 ∧
    (rotate90cw (PImage.mk 1 2 (fun _ y => if y = 0 then 7 else 9))).pix 0 0 = 9 ∧
    (rotate90cw (PImage.mk 1 2 (fun _ y => if y = 0 then 7 else 9))).pix 1 0 = 7 := by
  refine ⟨?_, ?_, ?_, ?_, ?_, ?_⟩ <;> decide

/-- Helper: the sort the listing applies produces a case-insensitively
ascending sequence. -/
theorem sorted_nameLe (l : List LEntry) :
    List.Sorted nameLe (List.insertionSort nameLe l) := by
  haveI h1 : IsTotal LEntry nameLe :=
    ⟨fun a b => le_total (pyLower a.name) (pyLower b.name)⟩
  haveI h2 : IsTrans LEntry nameLe :=
    ⟨fun a b c hab hbc => le_trans hab hbc⟩
  exact List.sorted_insertionSort nameLe l

/-- C5 (confirmed): every listing result has `directories` and `files`
sorted case-insensitively ascending by name, neither contains the
pseudo-entries `.` or `..`, and every file entry has a recognized image
extension — in the MLSD branch (`mlsdOk = true`) and in the NLST probe
fallback (`mlsdOk = false`) alike. -/
theorem C5_listing_wellformed (mlsdOk : Bool) (path : String) (entries : List RawEntry) :
    List.Sorted nameLe (list_directory mlsdOk path entries).directories ∧
    List.Sorted nameLe (list_directory mlsdOk path entries).files ∧
    ((list_directory mlsdOk path entries).directories.all
      (fun e => !(e.name == "." || e.name == ".."))) = true ∧
    ((list_directory mlsdOk path entries).files.all
      (fun e => !(e.name == "." || e.name == "..") && hasImageExt e.name)) = true := by
  refine ⟨?_, ?_, ?_, ?_⟩
  · exact sorted_nameLe _
  · exact sorted_nameLe _
  · rw [List.all_eq_true]
    intro e he
    simp only [list_directory] at he
    rw [List.mem_insertionSort, List.mem_filterMap] at he
    obtain ⟨a, ha, hfa⟩ := he
    by_cases hd : a.name = "." ∨ a.name = ".."
    · simp [hd] at hfa
    · by_cases ht : a.rtype = RawType.dir
      · simp only [hd, if_false, ht, if_true] at hfa
        push_neg at hd
        injection hfa with hfa
        subst hfa
        simp [hd.1, hd.2]
      · simp [hd, ht] at hfa
  · rw [List.all_eq_true]
    intro e he
    simp only [list_directory] at he
    cases mlsdOk with
    | true =>
      simp only [if_true] at he
      rw [List.mem_insertionSort, List.mem_filterMap] at he
      obtain ⟨a, ha, hfa⟩ := he
      by_cases hd : a.name = "." ∨ a.name = ".."
      · simp [hd] at hfa
      · by_cases ht : a.rtype = RawType.file ∧ hasImageExt a.name
        · rw [if_neg hd, if_pos ht] at hfa
          push_neg at hd
          injection hfa with hfa
          subst hfa
          simp [hd.1, hd.2, ht.2]
        · simp [hd, ht] at hfa
    | false =>
      simp only [Bool.false_eq_true, if_false] at he
      rw [List.mem_insertionSort, List.mem_filterMap] at he
      obtain ⟨a, ha, hfa⟩ := he
      by_cases hd : a.name = "." ∨ a.name = ".."
      · simp [hd] at hfa
      · by_cases ht : a.rtype ≠ RawType.dir ∧ hasImageExt a.name
        · rw [if_neg hd, if_pos ht] at hfa
          push_neg at hd
          injection hfa with hfa
          subst hfa
          simp [hd.1, hd.2, ht.2]
        · simp [hd, ht] at hfa

/-- C7 (confirmed): every non-exceptional return of
`_list_images_recursive` — including the early return taken when the name
listing fails to decode — leaves the session's working directory equal to
the one that was current at entry. -/
theorem C7_cwd_restored (cwd0 path : String) (n : FSNode)
    (h : (listImagesDir cwd0 path n).1.isOk = true) :
    (listImagesDir cwd0 path n).2 = cwd0 := by
  cases n with
  | file nm => simp [listImagesDir, Except.isOk, Except.toBool] at h
  | dir nm ce ml nl ch =>
    cases ce with
    | false => cases nl <;> simp [listImagesDir, Except.isOk, Except.toBool] at h
    | true =>
      cases ml with
      | true => cases nl <;> simp [listImagesDir]
      | false =>
        cases nl with
        | ok => simp [listImagesDir]
        | decodeErr => simp [listImagesDir]
        | permErr => simp [listImagesDir, Except.isOk, Except.toBool] at h

/-- C7 witness: on a directory whose name listing raises a decode error
(the early-return branch), the walk succeeds with no images and the working
directory is back at the entry directory. -/
theorem C7_witness :
    (listImagesDir "/base" "/p"
      (FSNode.dir "p" true false NlstRes.decodeErr [FSNode.file "x.jpg"])).1.isOk = true ∧
    (listImagesDir "/base" "/p"
      (FSNode.dir "p" true false NlstRes.decodeErr [FSNode.file "x.jpg"])).2 = "/base" :=
  ⟨by simp [listImagesDir, Except.isOk, Except.toBool], C7_cwd_restored "/base" "/p"
    (FSNode.dir "p" true false NlstRes.decodeErr [FSNode.file "x.jpg"])
    (by simp [listImagesDir, Except.isOk, Except.toBool])⟩

mutual

/-- Helper: on a fault-free directory node the walk succeeds with exactly
the expected depth-first image paths, restoring the working directory. -/
theorem listImagesDir_clean (cwd0 path : String) (n : FSNode)
    (hd : isDirB n = true) (hc : cleanTree n = true) :
    listImagesDir cwd0 path n = (.ok (imagePaths path n), cwd0) := by
  cases n with
  | file nm => simp [isDirB] at hd
  | dir nm ce ml nl ch =>
    simp only [cleanTree, Bool.and_eq_true] at hc
    obtain ⟨⟨⟨hA, hB⟩, hCml⟩, hD⟩ := hc
    subst hB
    cases ml with
    | true =>
      cases nl <;>
        simp [listImagesDir, imagePaths, procEntries_clean cwd0 path true ch path hD]
    | false =>
      have hnl : nl = NlstRes.ok := by
        cases nl <;> simp_all [nlstOkB]
      subst hnl
      simp [listImagesDir, imagePaths, procEntries_clean cwd0 path false ch path hD]
termination_by (sizeOf n, 0)

/-- Helper: the entry loop over fault-free entries collects exactly the
expected image paths, in either listing mode. -/
theorem procEntries_clean (cd p : String) (typed : Bool) (cs : List FSNode) (st : String)
    (hc : cleanList cs = true) :
    (procEntries cd p typed cs st).1 = imagePathsList p cs := by
  cases cs with
  | nil => simp [procEntries, imagePathsList]
  | cons c rest =>
    simp only [cleanList, Bool.and_eq_true] at hc
    obtain ⟨hc1, hc2⟩ := hc
    cases c with
    | file nm =>
      have hnm : ¬ (nm = "." ∨ nm = "..") := by
        simp only [cleanTree] at hc1
        simp only [Bool.not_eq_eq_eq_not, Bool.not_true, Bool.or_eq_false_iff,
          decide_eq_false_iff_not] at hc1
        exact not_or.mpr hc1
      simp only [procEntries, imagePathsList]
      by_cases hext : hasImageExt nm
      · simp [procEntry, hnm, hext, procEntries_clean cd p typed rest _ hc2]
      · simp [procEntry, hnm, hext, procEntries_clean cd p typed rest _ hc2]
    | dir nm ce ml nl ch =>
      have hcln := hc1
      simp only [cleanTree, Bool.and_eq_true] at hc1
      obtain ⟨⟨⟨hA, hB⟩, hCml⟩, hD⟩ := hc1
      subst hB
      have hnm : ¬ (nm = "." ∨ nm = "..") := by
        simp only [Bool.not_eq_eq_eq_not, Bool.not_true, Bool.or_eq_false_iff,
          decide_eq_false_iff_not] at hA
        exact not_or.mpr hA
      have hrec := listImagesDir_clean st (rstripSlash p ++ "/" ++ nm)
        (FSNode.dir nm true ml nl ch) rfl hcln
      have hrec2 := listImagesDir_clean cd (rstripSlash p ++ "/" ++ nm)
        (FSNode.dir nm true ml nl ch) rfl hcln
      simp only [procEntries, imagePathsList]
      cases typed with
      | true =>
        rw [procEntry, if_neg hnm]
        simp only [if_true, hrec]
        simp [procEntries_clean cd p true rest _ hc2, hnm]
      | false =>
        rw [procEntry, if_neg hnm]
        simp only [Bool.false_eq_true, if_false, if_true, hrec2]
        simp [procEntries_clean cd p false rest _ hc2, hnm]
termination_by (sizeOf cs, 1)

end

mutual

/-- Helper: the expected path list of a directory node has exactly one
entry per image-extension file of its tree. -/
theorem imagePaths_dir_length (p : String) (n : FSNode) (hd : isDirB n = true) :
    (imagePaths p n).length = countImages n := by
  cases n with
  | file nm => simp [isDirB] at hd
  | dir nm ce ml nl ch =>
    simp only [imagePaths, countImages]
    exact imagePathsList_length p ch
termination_by (sizeOf n, 0)

/-- Helper: the expected path list of an entry list has exactly one entry
per image-extension file below it. -/
theorem imagePathsList_length (p : String) (cs : List FSNode) :
    (imagePathsList p cs).length = countImagesList cs := by
  cases cs with
  | nil => simp [imagePathsList, countImagesList]
  | cons c rest =>
    cases c with
    | file nm =>
      by_cases hdots : nm = "." ∨ nm = ".."
      · simp [imagePathsList, countImagesList, countImages, FSNode.name, hdots,
          imagePathsList_length p rest]
      · by_cases hext : hasImageExt nm
        · simp [imagePathsList, countImagesList, countImages, FSNode.name, hdots, hext,
            imagePathsList_length p rest, Nat.add_comm]
        · simp [imagePathsList, countImagesList, countImages, FSNode.name, hdots, hext,
            imagePathsList_length p rest]
    | dir nm ce ml nl ch =>
      by_cases hdots : nm = "." ∨ nm = ".."
      · simp [imagePathsList, countImagesList, FSNode.name, hdots,
          imagePathsList_length p rest]
      · simp [imagePathsList, countImagesList, FSNode.name, hdots,
          imagePathsList_length p rest, Nat.add_comm,
          imagePaths_dir_length (rstripSlash p ++ "/" ++ nm)
            (FSNode.dir nm ce ml nl ch) rfl]
termination_by (sizeOf cs, 1)

end

/-- Helper: the walk raises exactly on the root-level failures. -/
theorem listImagesDir_error_iff (cwd0 path : String) (n : FSNode) :
    ((listImagesDir cwd0 path n).1 = .error ()) ↔ rootFailB n = true := by
  cases n with
  | file nm => simp [listImagesDir, rootFailB]
  | dir nm ce ml nl ch =>
    cases ce <;> cases ml <;> cases nl <;> simp [listImagesDir, rootFailB, nlstPermB]

/-- Helper: the entry loop processes an appended list sequentially. -/
theorem procEntries_append (cd p : String) (typed : Bool) (xs ys : List FSNode) (st : String) :
    procEntries cd p typed (xs ++ ys) st =
      ((procEntries cd p typed xs st).1 ++
        (procEntries cd p typed ys (procEntries cd p typed xs st).2).1,
       (procEntries cd p typed ys (procEntries cd p typed xs st).2).2) := by
  induction xs generalizing st with
  | nil => simp [procEntries]
  | cons c rest ih => simp [procEntries, ih, List.append_assoc]

/-- Helper: an unenterable directory entry (with a non-image name)
contributes nothing and leaves the working directory unchanged, in either
listing mode. -/
theorem procEntry_unenterable (cd p : String) (typed : Bool) (bnm : String)
    (bml : Bool) (bnl : NlstRes) (bch : List FSNode) (st : String)
    (hext : hasImageExt bnm = false) :
    procEntry cd p typed (FSNode.dir bnm false bml bnl bch) st = ([], st) := by
  by_cases hdots : bnm = "." ∨ bnm = ".."
  · cases typed <;> simp [procEntry, hdots]
  · cases typed with
    | true => cases bnl <;> simp [procEntry, listImagesDir, hdots, hext]
    | false => cases bnl <;> simp [procEntry, listImagesDir, hdots, hext]

/-- Helper: the entry loop simply skips an unenterable directory entry with
a non-image name — its siblings are processed exactly as if it were absent. -/
theorem procEntries_skip_unenterable (cd p : String) (typed : Bool)
    (xs ys : List FSNode) (st : String) (bnm : String) (bml : Bool) (bnl : NlstRes)
    (bch : List FSNode) (hext : hasImageExt bnm = false) :
    procEntries cd p typed (xs ++ FSNode.dir bnm false bml bnl bch :: ys) st =
      procEntries cd p typed (xs ++ ys) st := by
  rw [procEntries_append, procEntries_append]
  have hmid : ∀ s1, procEntries cd p typed (FSNode.dir bnm false bml bnl bch :: ys) s1 =
      procEntries cd p typed ys s1 := by
    intro s1
    simp only [procEntries]
    rw [procEntry_unenterable cd p typed bnm bml bnl bch s1 hext]
    simp
  rw [hmid]

/-- C6 (amended form): on a fault-free directory tree the recursive
enumeration returns exactly the tree's image paths — one per
image-extension file, N in total; the walk raises an error exactly on
root-level failures (the root cannot be entered, or its rich listing fails
and its name listing raises a permission error — NOT only when the root
cannot be entered, see the counterexample); and an unreadable (unenterable)
subdirectory deeper in the tree is skipped with all its siblings still
enumerated, in both listing modes. -/
theorem C6_enumeration (cwd0 path : String) (n : FSNode) :
    (isDirB n = true → cleanTree n = true →
      listImagesDir cwd0 path n = (.ok (imagePaths path n), cwd0) ∧
      (imagePaths path n).length = countImages n) ∧
    (((listImagesDir cwd0 path n).1 = .error ()) ↔ rootFailB n = true) ∧
    (∀ (nm : String) (ml : Bool) (nl : NlstRes) (xs ys : List FSNode)
      (bnm : String) (bml : Bool) (bnl : NlstRes) (bch : List FSNode),
      hasImageExt bnm = false →
      listImagesDir cwd0 path
        (FSNode.dir nm true ml nl (xs ++ FSNode.dir bnm false bml bnl bch :: ys)) =
      listImagesDir cwd0 path (FSNode.dir nm true ml nl (xs ++ ys))) := by
  refine ⟨?_, ?_, ?_⟩
  · intro hd hc
    exact ⟨listImagesDir_clean cwd0 path n hd hc, imagePaths_dir_length path n hd⟩
  · exact listImagesDir_error_iff cwd0 path n
  · intro nm ml nl xs ys bnm bml bnl bch hext
    cases ml <;> cases nl <;>
    · simp only [listImagesDir]
      try rw [procEntries_skip_unenterable cwd0 path true xs ys path bnm bml bnl bch hext]
      try rw [procEntries_skip_unenterable cwd0 path false xs ys path bnm bml bnl bch hext]
      try rfl
      try simp

/-- C6 counterexample: the claim "raises an EnumerationError only if the
root path itself cannot be entered" is false — a root that CAN be entered
(`canEnter = true`, witnessed by the same node succeeding once its name
listing works) still raises when its rich listing fails and its name
listing raises a permission error. -/
theorem C6_counterexample :
    listImagesDir "/" "/p" (FSNode.dir "p" true false NlstRes.permErr []) =
      (.error (), "/p") ∧
    listImagesDir "/" "/p" (FSNode.dir "p" true false NlstRes.ok []) =
      (.ok [], "/") := by
  constructor
  · simp [listImagesDir]
  · simp [listImagesDir, procEntries]

/-- C6 witness: the amended theorem applied to a concrete two-level clean
tree with two images and one non-image file. -/
theorem C6_witness :
    listImagesDir "/" "/r"
      (FSNode.dir "r" true true NlstRes.ok
        [FSNode.file "a.jpg", FSNode.file "n.txt",
         FSNode.dir "d" true true NlstRes.ok [FSNode.file "b.png"]]) =
      (.ok (imagePaths "/r"
        (FSNode.dir "r" true true NlstRes.ok
          [FSNode.file "a.jpg", FSNode.file "n.txt",
           FSNode.dir "d" true true NlstRes.ok [FSNode.file "b.png"]])), "/") ∧
    (imagePaths "/r"
      (FSNode.dir "r" true true NlstRes.ok
        [FSNode.file "a.jpg", FSNode.file "n.txt",
         FSNode.dir "d" true true NlstRes.ok [FSNode.file "b.png"]])).length =
      countImages
        (FSNode.dir "r" true true NlstRes.ok
          [FSNode.file "a.jpg", FSNode.file "n.txt",
           FSNode.dir "d" true true NlstRes.ok [FSNode.file "b.png"]]) :=
  (C6_enumeration "/" "/r"
    (FSNode.dir "r" true true NlstRes.ok
      [FSNode.file "a.jpg", FSNode.file "n.txt",
       FSNode.dir "d" true true NlstRes.ok [FSNode.file "b.png"]])).1
    rfl
    (by simp [cleanTree, cleanList, nlstOkB])

/-- C3 (confirmed): in the selection policy, random mode with an empty
enumeration raises `FileNotFoundError` and non-random mode without a
selected image raises `ValueError`; these kinds reach the facade's own
boundary handler (the `except` of `_get_image`) unmodified — the body's
result is exactly that kind — and only that boundary converts them, to its
flat `RuntimeError` message. -/
theorem C3_error_kinds (st : GISettings) (dims : ℕ × ℕ) (env : GIEnv) (s : BState) :
    (st.randomMode = true →
      (listImagesDir env.sessionCwd st.currentPath env.rootNode).1 = .ok [] →
      (get_image_body st dims env s).1 = .error PyExc.fileNotFound) ∧
    (st.randomMode = false → pyFalsy st.selectedImage = true →
      (get_image_body st dims env s).1 = .error PyExc.valueError) ∧
    (st.server.data.isEmpty = false → env.connectOk = true →
      ∀ e s2,
        get_image_body st dims env (BState.mk true s.tempFiles s.nextTmp) =
          (Except.error e, s2) →
        get_image st dims env s = (Except.error PyExc.runtimeError, s2)) := by
  refine ⟨?_, ?_, ?_⟩
  · intro hrand hempty
    simp [get_image_body, hrand, hempty]
  · intro hrand hsel
    simp [get_image_body, hrand, hsel]
  · intro hsrv hconn e s2 hbody
    simp [get_image, hsrv, connect_ftp, close_ftp, hconn, hbody]

/-- C3 witness: the theorem applied at concrete requests — random mode over
an empty directory, and non-random mode with no selection. -/
theorem C3_witness :
    (get_image_body (GISettings.mk "h" true none "/" "rotate" false) (800, 600)
      (GIEnv.mk true (FSNode.dir "r" true true NlstRes.ok []) "/" 0 true true
        (10, 10) none)
      (BState.mk true [] 0)).1 = .error PyExc.fileNotFound ∧
    (get_image_body (GISettings.mk "h" false none "/" "rotate" false) (800, 600)
      (GIEnv.mk true (FSNode.dir "r" true true NlstRes.ok []) "/" 0 true true
        (10, 10) none)
      (BState.mk true [] 0)).1 = .error PyExc.valueError :=
  ⟨(C3_error_kinds (GISettings.mk "h" true none "/" "rotate" false) (800, 600)
      (GIEnv.mk true (FSNode.dir "r" true true NlstRes.ok []) "/" 0 true true
        (10, 10) none)
      (BState.mk true [] 0)).1 rfl (by simp [listImagesDir, procEntries]),
   (C3_error_kinds (GISettings.mk "h" false none "/" "rotate" false) (800, 600)
      (GIEnv.mk true (FSNode.dir "r" true true NlstRes.ok []) "/" 0 true true
        (10, 10) none)
      (BState.mk true [] 0)).2.1 rfl rfl⟩

/-- Helper: the download-decode-fit tail always registers exactly the one
file the download created, whether the transfer or decode succeed or not. -/
theorem fetch_and_fit_tempFiles (st : GISettings) (dims : ℕ × ℕ) (env : GIEnv)
    (p : String) (s1 : BState) (hs1 : s1.connected = true) :
    ∃ suf, (fetch_and_fit st dims env p s1).2.tempFiles =
        s1.tempFiles ++ [tmpName s1.nextTmp suf] ∧
      (fetch_and_fit st dims env p s1).2.nextTmp = s1.nextTmp + 1 := by
  unfold fetch_and_fit download_image
  simp only [hs1]
  cases htr : env.transferOk with
  | false => simp
  | true =>
    cases hdec : env.decodeOk with
    | false => simp
    | true => simp

/-- Helper: the `try` body of `_get_image` either leaves the registered
temp files untouched, or registers exactly the one file the download
created — in success AND in every failure mode. -/
theorem get_image_body_tempFiles (st : GISettings) (dims : ℕ × ℕ) (env : GIEnv)
    (s1 : BState) (hs1 : s1.connected = true) :
    ((get_image_body st dims env s1).2.tempFiles = s1.tempFiles ∧
      (get_image_body st dims env s1).2.nextTmp = s1.nextTmp) ∨
    (∃ suf, (get_image_body st dims env s1).2.tempFiles =
        s1.tempFiles ++ [tmpName s1.nextTmp suf] ∧
      (get_image_body st dims env s1).2.nextTmp = s1.nextTmp + 1) := by
  unfold get_image_body
  cases hrm : st.randomMode with
  | true =>
    rcases hE : (listImagesDir env.sessionCwd st.currentPath env.rootNode).1 with e | imgs
    · left
      simp [hrm, hE]
    · cases hemp : imgs.isEmpty with
      | true =>
        left
        simp [hrm, hE, hemp]
      | false =>
        right
        have htail := fetch_and_fit_tempFiles st dims env
          (imgs.getD (env.choose % imgs.length) "") s1 hs1
        simpa [hrm, hE, hemp] using htail
  | false =>
    cases hfal : pyFalsy st.selectedImage with
    | true =>
      left
      simp [hrm, hfal]
    | false =>
      right
      have htail := fetch_and_fit_tempFiles st dims env
        (st.selectedImage.getD "") s1 hs1
      simpa [hrm, hfal] using htail

/-- Helper: the final state of a `_get_image` request keeps every
previously registered temp file and registers every file it creates. -/
theorem get_image_tempFiles (st : GISettings) (dims : ℕ × ℕ) (env : GIEnv) (s : BState) :
    ((get_image st dims env s).2.tempFiles = s.tempFiles ∧
      (get_image st dims env s).2.nextTmp = s.nextTmp) ∨
    (∃ suf, (get_image st dims env s).2.tempFiles =
        s.tempFiles ++ [tmpName s.nextTmp suf] ∧
      (get_image st dims env s).2.nextTmp = s.nextTmp + 1) := by
  by_cases hsrv : st.server.data.isEmpty = true
  · left
    simp [get_image, hsrv]
  · cases hconn : env.connectOk with
    | false =>
      left
      simp [get_image, hsrv, connect_ftp, close_ftp, hconn]
    | true =>
      have hbody := get_image_body_tempFiles st dims env
        (BState.mk true s.tempFiles s.nextTmp) rfl
      have hst2 : (get_image st dims env s).2 =
          (get_image_body st dims env (BState.mk true s.tempFiles s.nextTmp)).2 := by
        rcases hres : get_image_body st dims env (BState.mk true s.tempFiles s.nextTmp)
          with ⟨r, s2⟩
        cases r <;> simp [get_image, hsrv, hconn, connect_ftp, close_ftp, hres]
      rw [hst2]
      exact hbody

/-- C1 (amended form): `_get_image` itself performs no cleanup on return —
cleanup is tied to instance destruction: `__del__` deletes the registered
scratch files first and then closes the session, both best-effort, leaving
no temp files and no connection.  Nothing is lost before that point: after
any request — success or failure — every previously registered scratch file
is still registered, and every scratch file the request created is
registered, so destruction can delete them all. -/
theorem C1_cleanup_at_del (st : GISettings) (dims : ℕ × ℕ) (env : GIEnv) (s : BState) :
    (ftpbrowser_del (get_image st dims env s).2).connected = false ∧
    (ftpbrowser_del (get_image st dims env s).2).tempFiles = [] ∧
    (∀ p, p ∈ s.tempFiles → p ∈ (get_image st dims env s).2.tempFiles) ∧
    (∀ k, s.nextTmp ≤ k → k < (get_image st dims env s).2.nextTmp →
      ∃ suf, tmpName k suf ∈ (get_image st dims env s).2.tempFiles) := by
  refine ⟨rfl, rfl, ?_, ?_⟩
  · intro p hp
    rcases get_image_tempFiles st dims env s with ⟨h1, _⟩ | ⟨suf, h1, _⟩
    · rw [h1]
      exact hp
    · rw [h1]
      exact List.mem_append_left _ hp
  · intro k hk1 hk2
    rcases get_image_tempFiles st dims env s with ⟨h1, h2⟩ | ⟨suf, h1, h2⟩
    · rw [h2] at hk2
      omega
    · rw [h2] at hk2
      have hkeq : k = s.nextTmp := by omega
      subst hkeq
      refine ⟨suf, ?_⟩
      rw [h1]
      exact List.mem_append_right _ (List.mem_singleton_self _)

/-- C1 counterexample: a SUCCESSFUL `_get_image` request returns with the
FTP session still open and the downloaded scratch file still on disk and
registered — the session is not closed and the scratch file is not deleted
on return (that only happens at `__del__`). -/
theorem C1_counterexample :
    (get_image (GISettings.mk "h" false (some "/a/x.jpg") "/" "rotate" false)
        (800, 600)
        (GIEnv.mk true (FSNode.dir "" true true NlstRes.ok []) "/" 0 true true
          (300, 200) none)
        (BState.mk false [] 0)).1 = Except.ok (800, 600) ∧
    (get_image (GISettings.mk "h" false (some "/a/x.jpg") "/" "rotate" false)
        (800, 600)
        (GIEnv.mk true (FSNode.dir "" true true NlstRes.ok []) "/" 0 true true
          (300, 200) none)
        (BState.mk false [] 0)).2.connected = true ∧
    (get_image (GISettings.mk "h" false (some "/a/x.jpg") "/" "rotate" false)
        (800, 600)
        (GIEnv.mk true (FSNode.dir "" true true NlstRes.ok []) "/" 0 true true
          (300, 200) none)
        (BState.mk false [] 0)).2.tempFiles = [tmpName 0 ".jpg"] ∧
    [tmpName 0 ".jpg"] ≠ ([] : List String) :=
  ⟨rfl, rfl, rfl, by decide⟩

/-- C1 witness: the amended theorem applied to the same concrete
successful request. -/
theorem C1_witness :
    (ftpbrowser_del (get_image
        (GISettings.mk "h" false (some "/a/x.jpg") "/" "rotate" false) (800, 600)
        (GIEnv.mk true (FSNode.dir "" true true NlstRes.ok []) "/" 0 true true
          (300, 200) none)
        (BState.mk false [] 0)).2).connected = false ∧
    (ftpbrowser_del (get_image
        (GISettings.mk "h" false (some "/a/x.jpg") "/" "rotate" false) (800, 600)
        (GIEnv.mk true (FSNode.dir "" true true NlstRes.ok []) "/" 0 true true
          (300, 200) none)
        (BState.mk false [] 0)).2).tempFiles = [] :=
  ⟨(C1_cleanup_at_del (GISettings.mk "h" false (some "/a/x.jpg") "/" "rotate" false)
      (800, 600)
      (GIEnv.mk true (FSNode.dir "" true true NlstRes.ok []) "/" 0 true true
        (300, 200) none)
      (BState.mk false [] 0)).1,
   (C1_cleanup_at_del (GISettings.mk "h" false (some "/a/x.jpg") "/" "rotate" false)
      (800, 600)
      (GIEnv.mk true (FSNode.dir "" true true NlstRes.ok []) "/" 0 true true
        (300, 200) none)
      (BState.mk false [] 0)).2.1⟩

/-- C4: in the plugin's `_download_image` the scratch path is registered in
`self.temp_files` before the transfer starts, so a failed transfer leaves it
reachable by cleanup — but the claim also covers the blueprint's
`_download_image`/`preview_image`, where NO register exists: the path is
only returned on success, `local_path` is still `None` when the transfer
fails midway, and the `finally` block then deletes nothing — the scratch
file stays on disk with no reference.  Evaluated at the failing input. -/
theorem C4_preview_leaks_scratch :
    preview_image "/a/x.jpg" false true [] =
      (Except.error PyExc.runtimeError, [tmpName 0 ".jpg"]) ∧
    (download_image "/a/x.jpg" false (BState.mk true [] 0)).1 =
      Except.error PyExc.runtimeError ∧
    (download_image "/a/x.jpg" false (BState.mk true [] 0)).2.tempFiles =
      [tmpName 0 ".jpg"] ∧
    preview_image "/a/x.jpg" true true [] = (Except.ok (), []) :=
  ⟨rfl, rfl, rfl, rfl⟩

/-- C10 witness: the theorem applied to a 600×800 portrait image on an
800×600 display. -/
theorem C10_witness :
    (600 : ℚ) / 800 < (800 : ℚ) / 600 ∧
    600 * 600 < 800 * 800 ∧
    verticalHandleSize "crop" (800, 600) (600, 800) = (600, 600 * 600 / 800) ∧
    600 * 600 / 800 ≤ 800 :=
  C10_crop_reduces_only_height 800 600 600 800 (by decide) (by decide) (by decide)
    (by decide) (by decide) (by decide)
